import Mathlib

/-
Verification of the esi client library core (request/response/error/rate
pipeline) against its natural-language specification.

The Go source is shallowly embedded: time instants are modelled as integers
counting whole seconds (the zero value of time.Time is instant 0), header
maps as association lists whose keys are already in canonical MIME form,
and the response body as an Except value recording whether the body read
(ioutil.ReadAll or the streaming reads of json.Decoder and io.Copy)
succeeded.  Standard-library calls whose behaviour the claims do not
inspect (json.Unmarshal into the error shape, json.Decoder.Decode into a
caller type) are passed in as function parameters.
-/

namespace Esi

/-- Model of Go strconv digit runs: value of a non-empty all-digit list. -/
def digitsVal : List Char → Option Nat
  | [] => none
  | [c] => if 48 ≤ c.toNat ∧ c.toNat ≤ 57 then some (c.toNat - 48) else none
  | c :: rest =>
    if 48 ≤ c.toNat ∧ c.toNat ≤ 57 then
      match digitsVal rest with
      | some v => some ((c.toNat - 48) * 10 ^ rest.length + v)
      | none => none
    else none

/-- Model of strconv.Atoi: optional sign then one or more digits, the whole
string consumed; any other input is an error (and the Go call sites here
discard the error, using the accompanying zero value). -/
def goAtoi (s : String) : Option Int :=
  match s.data with
  | [] => none
  | '+' :: rest => (digitsVal rest).map (fun n => (n : Int))
  | '-' :: rest => (digitsVal rest).map (fun n => -(n : Int))
  | l => (digitsVal l).map (fun n => (n : Int))

/-- Model of http.Header.Get: first value stored under the (canonical) key,
or the empty string when the key is absent. -/
def headerGet (headers : List (String × String)) (key : String) : String :=
  match headers.find? (fun p => p.1 == key) with
  | some p => p.2
  | none => ""

def headerErrorRateRemaining : String := "X-ESI-Error-Limit-Remain"

def headerErrorRateReset : String := "X-ESI-Error-Limit-Reset"

/-- A raw transport response: status code, canonical headers, and the body
read outcome (Except.error means reading the body fails). -/
structure HttpResponse where
  statusCode : Int
  headers : List (String × String)
  body : Except String String
deriving Repr

/-- Rate represents rate limit information (Remaining, Reset).  Reset is an
absolute instant in seconds; 0 is the zero time. -/
structure Rate where
  remaining : Int
  reset : Int
deriving DecidableEq, Repr

/-- Embedding of parseRate: read the two rate headers, parse each with
strconv.Atoi discarding the error, and convert a present non-zero reset
delay to the absolute instant now + delay seconds.  tnow is the value of
the package clock now() during the exchange. -/
def parseRate (headers : List (String × String)) (tnow : Int) : Rate :=
  let rate : Rate := ⟨0, 0⟩
  let rate :=
    let remaining := headerGet headers headerErrorRateRemaining
    if remaining ≠ "" then { rate with remaining := (goAtoi remaining).getD 0 }
    else rate
  let reset := headerGet headers headerErrorRateReset
  if reset ≠ "" then
    let v := (goAtoi reset).getD 0
    if v ≠ 0 then { rate with reset := tnow + v } else rate
  else rate

/-- Embedding of the Error struct: HTTP status code, the Err message field
(json tag "error"), and the embedded Rate snapshot.  The back-pointer to
the raw response is dropped. -/
structure Error where
  httpStatusCode : Int
  err : String
  rate : Rate
deriving DecidableEq, Repr

/-- Embedding of the Error method of Error (the error interface): exactly
the Err message field. -/
def Error.error (e : Error) : String := e.err

/-- Embedding of makeError.  errDecode models json.Unmarshal of the body
bytes into the error shape: some m when the unmarshal writes message m into
the Err field, none when it writes nothing.  A body read failure skips the
unmarshal; either way the status code and rate snapshot are recorded. -/
def makeError (errDecode : String → Option String) (tnow : Int)
    (r : HttpResponse) : Error :=
  let msg : String :=
    match r.body with
    | Except.ok data => (errDecode data).getD ""
    | Except.error _ => ""
  { httpStatusCode := r.statusCode, err := msg,
    rate := parseRate r.headers tnow }

/-- Embedding of the check method of Client: status codes in [200, 299] are
success (the warning-header logging on that path is a pure side effect and
is not modelled); every other status code produces the structured error. -/
def check (errDecode : String → Option String) (tnow : Int)
    (resp : HttpResponse) : Option Error :=
  if 200 ≤ resp.statusCode ∧ resp.statusCode ≤ 299 then none
  else some (makeError errDecode tnow resp)

/-- The caller-supplied destination of Client.Do: nil, an io.Writer (whose
write outcome on the whole body is given by the function), or a JSON decode
target. -/
inductive Dest (α : Type) where
  | null : Dest α
  | writer (write : String → Except String Unit) : Dest α
  | decoder : Dest α

/-- Outcome of json.Decoder.Decode on the body bytes: io.EOF (no JSON value
present), a decoded value, or a decode error. -/
inductive DecodeRes (α : Type) where
  | eof : DecodeRes α
  | val (a : α) : DecodeRes α
  | err (msg : String) : DecodeRes α

/-- The error returned by Client.Do: the transport failure returned
unmodified, the structured API error, or a JSON decode error. -/
inductive DoErr where
  | transport (e : String)
  | api (e : Error)
  | decode (msg : String)
deriving DecidableEq, Repr

/-- Observable outcome of one Client.Do call.  rate is the client rate
state after the call (rate0 when untouched); copyResult records what
io.Copy returned on the writer path (the code discards it); destVal is what
Decode wrote into the destination (none means the destination was left
untouched at its zero value). -/
structure DoRes (α : Type) where
  resp : Option HttpResponse
  err : Option DoErr
  rate : Rate
  copyResult : Option (Except String Unit)
  destVal : Option α

/-- Embedding of Client.Do.  dec models json.Decoder.Decode into the caller
type; errDecode models json.Unmarshal into the error shape; tnow is the
package clock during the exchange; rate0 the client rate state before the
call; transport the outcome of the injected HTTP client call. -/
def clientDo {α : Type} (dec : String → DecodeRes α)
    (errDecode : String → Option String) (tnow : Int) (rate0 : Rate)
    (transport : Except String HttpResponse) (dest : Dest α) : DoRes α :=
  match transport with
  | Except.error e => ⟨none, some (DoErr.transport e), rate0, none, none⟩
  | Except.ok resp =>
    match check errDecode tnow resp with
    | some apiErr =>
      ⟨some resp, some (DoErr.api apiErr), apiErr.rate, none, none⟩
    | none =>
      match dest with
      | Dest.null => ⟨some resp, none, rate0, none, none⟩
      | Dest.writer write =>
        let cr : Except String Unit :=
          match resp.body with
          | Except.ok data => write data
          | Except.error e => Except.error e
        ⟨some resp, none, rate0, some cr, none⟩
      | Dest.decoder =>
        match resp.body with
        | Except.error e => ⟨some resp, some (DoErr.decode e), rate0, none, none⟩
        | Except.ok data =>
          match dec data with
          | DecodeRes.eof => ⟨some resp, none, rate0, none, none⟩
          | DecodeRes.val a => ⟨some resp, none, rate0, none, some a⟩
          | DecodeRes.err m => ⟨some resp, some (DoErr.decode m), rate0, none, none⟩

/-- A net/url URL reduced to the parts the claims inspect: scheme, host and
path; an empty string stands for an absent part.  User, query, fragment and
opaque parts are not modelled. -/
structure GoURL where
  scheme : String
  host : String
  path : String
deriving DecidableEq, Repr

/-- Splitting a character list at every slash, the list-level counterpart
of strings.Split(s, sep) with a one-character separator. -/
def splitOnSlash : List Char → List (List Char)
  | [] => [[]]
  | c :: rest =>
    let r := splitOnSlash rest
    if c = '/' then [] :: r
    else
      match r with
      | [] => [[c]]
      | hd :: tl => (c :: hd) :: tl

/-- The prefix of a path up to and including its last slash (the Go
expression base[:strings.LastIndex(base, "/")+1]). -/
def upToLastSlashL (base : List Char) : List Char :=
  let parts := splitOnSlash base
  if parts.length ≤ 1 then []
  else List.intercalate ['/'] parts.dropLast ++ ['/']

/-- Embedding of net/url resolvePath: merge ref into the directory of base,
then remove dot segments. -/
def resolvePath (base ref : String) : String :=
  let full : List Char :=
    if ref = "" then base.data
    else
      match ref.data with
      | '/' :: _ => ref.data
      | _ => upToLastSlashL base.data ++ ref.data
  if full = [] then ""
  else
    let src := splitOnSlash full
    let dst := src.foldl
      (fun acc elem =>
        if elem = ['.'] then acc
        else if elem = ['.', '.'] then acc.dropLast
        else acc ++ [elem]) []
    let dst :=
      match src.getLast? with
      | some e => if e = ['.'] ∨ e = ['.', '.'] then dst ++ [[]] else dst
      | none => dst
    let joined := List.intercalate ['/'] dst
    String.mk ('/' ::
      (match joined with
       | '/' :: tl => tl
       | l => l))

/-- Embedding of URL.ResolveReference restricted to scheme, host and path:
an absolute reference (or one carrying a host) supplies its own host and
path; otherwise the base provides host and directory context. -/
def resolveReference (u ref : GoURL) : GoURL :=
  let scheme := if ref.scheme = "" then u.scheme else ref.scheme
  if ref.scheme ≠ "" ∨ ref.host ≠ "" then
    { scheme := scheme, host := ref.host, path := resolvePath ref.path "" }
  else
    { scheme := scheme, host := u.host, path := resolvePath u.path ref.path }

/-- The URL step of Client.NewRequest: api.BaseURL.Parse(url), which is
reference resolution of the parsed url against the base. -/
def newRequestURL (base ref : GoURL) : GoURL :=
  resolveReference base ref

/-- A tiny model of fmt.Sprintf restricted to the two verbs of the Rate
format string, both fed integer-second values (the float fed to the
zero-precision float verb is a whole number of seconds in this model, so
it renders as that integer). -/
def applyFmt : List Char → List String → List Char
  | '%' :: 'd' :: rest, a :: as => a.data ++ applyFmt rest as
  | '%' :: '.' :: 'f' :: rest, a :: as => a.data ++ applyFmt rest as
  | c :: rest, as => c :: applyFmt rest as
  | [], _ => []

/-- Embedding of the String method of Rate: the duration is Reset minus the
clock value at render time, in seconds, unclamped. -/
def rateString (r : Rate) (tnow : Int) : String :=
  ⟨applyFmt "error rate limit: %d remaining calls; reset in %.fs".data
    [toString r.remaining, toString (r.reset - tnow)]⟩

/-- A time.Time value in civil form: calendar fields, sub-second
nanoseconds, and the zone offset in minutes east of UTC (RFC3339 carries
offsets at minute granularity). -/
structure GoTime where
  year : Nat
  month : Nat
  day : Nat
  hour : Nat
  minute : Nat
  second : Nat
  nsec : Nat
  offsetMin : Int
deriving DecidableEq, Repr

def digitChar (n : Nat) : Char := Char.ofNat (48 + n)

def pad2 (n : Nat) : List Char := [digitChar (n / 10), digitChar (n % 10)]

def pad4 (n : Nat) : List Char := pad2 (n / 100) ++ pad2 (n % 100)

/-- Rendering of the Z07:00 layout element: Z for a zero offset, otherwise
a sign and zero-padded hours and minutes. -/
def offsetChars (off : Int) : List Char :=
  if off = 0 then ['Z']
  else
    let a := off.natAbs
    (if off < 0 then '-' else '+') :: (pad2 (a / 60) ++ ':' :: pad2 (a % 60))

/-- time.Time.Format with the RFC3339 layout: second precision, so the
nanosecond field is not rendered. -/
def formatRFC3339 (t : GoTime) : List Char :=
  pad4 t.year ++ '-' :: pad2 t.month ++ '-' :: pad2 t.day ++
    'T' :: pad2 t.hour ++ ':' :: pad2 t.minute ++ ':' :: pad2 t.second ++
    offsetChars t.offsetMin

def readDigit (c : Char) : Option Nat :=
  if 48 ≤ c.toNat ∧ c.toNat ≤ 57 then some (c.toNat - 48) else none

def read2 : List Char → Option (Nat × List Char)
  | c1 :: c2 :: rest =>
    match readDigit c1, readDigit c2 with
    | some d1, some d2 => some (d1 * 10 + d2, rest)
    | _, _ => none
  | _ => none

def read4 (cs : List Char) : Option (Nat × List Char) :=
  match read2 cs with
  | some (h, cs1) =>
    match read2 cs1 with
    | some (l, cs2) => some (h * 100 + l, cs2)
    | none => none
  | none => none

def expectChar (c : Char) : List Char → Option (List Char)
  | c1 :: rest => if c1 = c then some rest else none
  | [] => none

def readSignedOffset (sign : Int) (rest : List Char) : Option Int :=
  match read2 rest with
  | some (hh, cs1) =>
    match expectChar ':' cs1 with
    | some cs2 =>
      match read2 cs2 with
      | some (mm, []) => some (sign * (hh * 60 + mm))
      | _ => none
    | none => none
  | none => none

/-- Reading the trailing zone of the RFC3339 layout, which must end the
input: Z alone, or a signed hh:mm pair. -/
def readOffset : List Char → Option Int
  | [] => none
  | c :: rest =>
    if c = 'Z' then (if rest.isEmpty then some 0 else none)
    else if c = '+' then readSignedOffset 1 rest
    else if c = '-' then readSignedOffset (-1) rest
    else none

def isLeapYear (y : Nat) : Bool :=
  (y % 4 == 0 && y % 100 != 0) || y % 400 == 0

def daysInMonth (y m : Nat) : Nat :=
  if m = 2 then (if isLeapYear y then 29 else 28)
  else if m = 4 ∨ m = 6 ∨ m = 9 ∨ m = 11 then 30
  else 31

/-- The field ranges time.Parse accepts for the RFC3339 layout, together
with the bounds under which the four-digit year and two-digit offset
renderings of Format are faithful. -/
def validParts (t : GoTime) : Bool :=
  t.year ≤ 9999 && 1 ≤ t.month && t.month ≤ 12 &&
  1 ≤ t.day && t.day ≤ daysInMonth t.year t.month &&
  t.hour ≤ 23 && t.minute ≤ 59 && t.second ≤ 59 &&
  t.nsec < 1000000000 && t.offsetMin.natAbs ≤ 1439

/-- time.Parse with the RFC3339 layout: fixed-width numeric fields joined
by literal separators, a trailing zone, the whole input consumed, and the
field ranges checked.  The parsed value carries no sub-second part because
the layout renders none. -/
def parseRFC3339 (cs : List Char) : Option GoTime :=
  match read4 cs with
  | none => none
  | some (y, cs) =>
    match expectChar '-' cs with
    | none => none
    | some cs =>
      match read2 cs with
      | none => none
      | some (mo, cs) =>
        match expectChar '-' cs with
        | none => none
        | some cs =>
          match read2 cs with
          | none => none
          | some (d, cs) =>
            match expectChar 'T' cs with
            | none => none
            | some cs =>
              match read2 cs with
              | none => none
              | some (h, cs) =>
                match expectChar ':' cs with
                | none => none
                | some cs =>
                  match read2 cs with
                  | none => none
                  | some (mi, cs) =>
                    match expectChar ':' cs with
                    | none => none
                    | some cs =>
                      match read2 cs with
                      | none => none
                      | some (s, cs) =>
                        match readOffset cs with
                        | none => none
                        | some off =>
                          let t : GoTime := ⟨y, mo, d, h, mi, s, 0, off⟩
                          if validParts t then some t else none

/-- Timestamp wraps a time.Time. -/
structure Timestamp where
  time : GoTime
deriving DecidableEq, Repr

/-- Embedding of Timestamp.MarshalJSON: the RFC3339 rendering surrounded by
double quotes; the method never fails. -/
def Timestamp.marshalJSON (t : Timestamp) : String :=
  String.mk ('"' :: formatRFC3339 t.time ++ ['"'])

/-- What a call to Timestamp.UnmarshalJSON does: succeed, return a
time.ParseError, or panic (a slice bound violation). -/
inductive TsUnmarshalRes where
  | ok (t : Timestamp)
  | parseError
  | panicked
deriving DecidableEq, Repr

/-- Embedding of Timestamp.UnmarshalJSON: the expression s[1:len(s)-1]
strips the first and last byte unconditionally, so an input shorter than
two bytes makes the slice bounds invalid and the method panics; otherwise
the stripped text goes to time.Parse with the RFC3339 layout, whose failure
is returned as a time.ParseError. -/
def Timestamp.unmarshalJSON (b : String) : TsUnmarshalRes :=
  let s := b.data
  if s.length < 2 then TsUnmarshalRes.panicked
  else
    match parseRFC3339 (s.drop 1).dropLast with
    | some t => TsUnmarshalRes.ok ⟨t⟩
    | none => TsUnmarshalRes.parseError

/-- A JSON value as it appears in an encoded request body: an integer, a
string, a float64 (carried exactly, as Go renders float64 in the shortest
form that parses back to the same value), or the raw bytes produced by
Timestamp.MarshalJSON. -/
inductive JVal where
  | jint (n : Int)
  | jstr (s : String)
  | jfloat (x : Float)
  | jts (raw : String)

/-- CharacterPublicInfo: every field is a pointer with omitempty, modelled
as an Option that is omitted from the encoding when absent. -/
structure CharacterPublicInfo where
  allianceID : Option Int
  ancestryID : Option Int
  birthday : Option Timestamp
  bloodlineID : Option Int
  corporationID : Option Int
  description : Option String
  factionID : Option Int
  gender : Option String
  name : Option String
  raceID : Option Int
  securityStatus : Option Float

/-- One struct field under json.Marshal: omitted when the pointer is nil,
else a single key/value pair. -/
def fieldEnc {β : Type} (k : String) (f : β → JVal) : Option β → List (String × JVal)
  | none => []
  | some v => [(k, f v)]

/-- json.Marshal of CharacterPublicInfo: fields in struct order, each
omitted when nil; a present Birthday goes through Timestamp.MarshalJSON. -/
def encodeCPI (i : CharacterPublicInfo) : List (String × JVal) :=
  fieldEnc "alliance_id" JVal.jint i.allianceID ++
  fieldEnc "ancestry_id" JVal.jint i.ancestryID ++
  fieldEnc "birthday" (fun t => JVal.jts (Timestamp.marshalJSON t)) i.birthday ++
  fieldEnc "bloodline_id" JVal.jint i.bloodlineID ++
  fieldEnc "corporation_id" JVal.jint i.corporationID ++
  fieldEnc "description" JVal.jstr i.description ++
  fieldEnc "faction_id" JVal.jint i.factionID ++
  fieldEnc "gender" JVal.jstr i.gender ++
  fieldEnc "name" JVal.jstr i.name ++
  fieldEnc "race_id" JVal.jint i.raceID ++
  fieldEnc "security_status" JVal.jfloat i.securityStatus

/-- Object-member lookup as json.Unmarshal performs it per struct field. -/
def lookupJ (l : List (String × JVal)) (k : String) : Option JVal :=
  (l.find? (fun p => p.1 == k)).map (fun p => p.2)

/-- Decoding one optional int field: an absent member leaves the pointer
nil; a member of the wrong shape is an unmarshal type error. -/
def getIntOpt : Option JVal → Option (Option Int)
  | none => some none
  | some (JVal.jint n) => some (some n)
  | some _ => none

def getStrOpt : Option JVal → Option (Option String)
  | none => some none
  | some (JVal.jstr s) => some (some s)
  | some _ => none

def getFloatOpt : Option JVal → Option (Option Float)
  | none => some none
  | some (JVal.jfloat x) => some (some x)
  | some _ => none

/-- Decoding the Birthday field routes the raw member bytes through
Timestamp.UnmarshalJSON. -/
def getTsOpt : Option JVal → Option (Option Timestamp)
  | none => some none
  | some (JVal.jts raw) =>
    match Timestamp.unmarshalJSON raw with
    | TsUnmarshalRes.ok t => some (some t)
    | _ => none
  | some _ => none

/-- json.Unmarshal of an object into CharacterPublicInfo: each field is
looked up by its json key, absent members leave the field nil. -/
def decodeCPI (l : List (String × JVal)) : Option CharacterPublicInfo := do
  let a ← getIntOpt (lookupJ l "alliance_id")
  let b ← getIntOpt (lookupJ l "ancestry_id")
  let c ← getTsOpt (lookupJ l "birthday")
  let d ← getIntOpt (lookupJ l "bloodline_id")
  let e ← getIntOpt (lookupJ l "corporation_id")
  let f ← getStrOpt (lookupJ l "description")
  let g ← getIntOpt (lookupJ l "faction_id")
  let h ← getStrOpt (lookupJ l "gender")
  let n ← getStrOpt (lookupJ l "name")
  let r ← getIntOpt (lookupJ l "race_id")
  let s ← getFloatOpt (lookupJ l "security_status")
  pure ⟨a, b, c, d, e, f, g, h, n, r, s⟩

/-- The side condition under which the amended round-trip claim is stated:
a present birthday is in RFC3339 range and carries no sub-second part. -/
def birthdayOK (i : CharacterPublicInfo) : Bool :=
  match i.birthday with
  | none => true
  | some t => validParts t.time && t.time.nsec == 0

/-! Helper lemmas.  The rendering and reading functions of the RFC3339
layout are mutually inverse on in-range field values. -/

theorem readDigit_digitChar (d : Nat) (h : d < 10) :
    readDigit (digitChar d) = some d := by
  interval_cases d <;> decide

theorem read2_pad2 (n : Nat) (h : n < 100) (rest : List Char) :
    read2 (pad2 n ++ rest) = some (n, rest) := by
  have h1 : n / 10 < 10 := by omega
  have h2 : n % 10 < 10 := by omega
  simp [pad2, read2, readDigit_digitChar _ h1, readDigit_digitChar _ h2]
  omega

theorem read4_pad4 (n : Nat) (h : n < 10000) (rest : List Char) :
    read4 (pad4 n ++ rest) = some (n, rest) := by
  have h1 : n / 100 < 100 := by omega
  have h2 : n % 100 < 100 := by omega
  simp [pad4, read4, List.append_assoc, read2_pad2 _ h1, read2_pad2 _ h2]
  omega

theorem expectChar_same (c : Char) (rest : List Char) :
    expectChar c (c :: rest) = some rest := by
  simp [expectChar]

theorem readOffset_offsetChars (off : Int) (h : off.natAbs ≤ 1439) :
    readOffset (offsetChars off) = some off := by
  by_cases h0 : off = 0
  · subst h0; rfl
  · have ha : off.natAbs / 60 < 100 := by omega
    have hb : off.natAbs % 60 < 100 := by omega
    have htail : read2 (pad2 (off.natAbs % 60)) = some (off.natAbs % 60, []) := by
      have := read2_pad2 (off.natAbs % 60) hb []
      simpa using this
    have hsigned : ∀ sg : Int,
        readSignedOffset sg (pad2 (off.natAbs / 60) ++ ':' :: pad2 (off.natAbs % 60)) =
          some (sg * (off.natAbs / 60 * 60 + off.natAbs % 60)) := by
      intro sg
      simp [readSignedOffset, read2_pad2 _ ha, expectChar_same, htail]
    by_cases hneg : off < 0
    · have : readOffset (offsetChars off) =
          readSignedOffset (-1) (pad2 (off.natAbs / 60) ++ ':' :: pad2 (off.natAbs % 60)) := by
        simp [offsetChars, if_neg h0, if_pos hneg, readOffset]
      rw [this, hsigned]
      congr 1
      omega
    · have : readOffset (offsetChars off) =
          readSignedOffset 1 (pad2 (off.natAbs / 60) ++ ':' :: pad2 (off.natAbs % 60)) := by
        simp [offsetChars, if_neg h0, if_neg hneg, readOffset]
      rw [this, hsigned]
      congr 1
      omega

theorem daysInMonth_le (y m : Nat) : daysInMonth y m ≤ 31 := by
  unfold daysInMonth
  split
  · split <;> omega
  · split <;> omega

theorem parseRFC3339_formatRFC3339 (t : GoTime) (hv : validParts t = true)
    (hn : t.nsec = 0) : parseRFC3339 (formatRFC3339 t) = some t := by
  obtain ⟨y, mo, d, h, mi, s, ns, off⟩ := t
  replace hn : ns = 0 := hn
  subst hn
  simp only [validParts, Bool.and_eq_true, decide_eq_true_eq] at hv
  have hd100 : d < 100 := by
    have := daysInMonth_le y mo
    omega
  have hv2 : validParts ⟨y, mo, d, h, mi, s, 0, off⟩ = true := by
    simp only [validParts, Bool.and_eq_true, decide_eq_true_eq]
    omega
  simp only [formatRFC3339, List.append_assoc, List.cons_append]
  simp only [parseRFC3339,
    read4_pad4 y (by omega),
    expectChar_same,
    read2_pad2 mo (by omega),
    read2_pad2 d hd100,
    read2_pad2 h (by omega),
    read2_pad2 mi (by omega),
    read2_pad2 s (by omega),
    readOffset_offsetChars off (by omega)]
  simp [hv2]

theorem ts_roundtrip (t : Timestamp) (hv : validParts t.time = true)
    (hn : t.time.nsec = 0) :
    Timestamp.unmarshalJSON (Timestamp.marshalJSON t) = TsUnmarshalRes.ok t := by
  obtain ⟨gt⟩ := t
  replace hv : validParts gt = true := hv
  replace hn : gt.nsec = 0 := hn
  have hlen : ¬ (('"' :: (formatRFC3339 gt ++ ['"'])).length < 2) := by
    simp
  simp only [Timestamp.unmarshalJSON, Timestamp.marshalJSON, List.cons_append]
  rw [if_neg hlen]
  have hdrop : (('"' :: (formatRFC3339 gt ++ ['"'])).drop 1).dropLast =
      formatRFC3339 gt := by
    simp [List.dropLast_concat]
  rw [hdrop, parseRFC3339_formatRFC3339 gt hv hn]

theorem find?_fieldEnc_ne {β : Type} (k k' : String) (f : β → JVal)
    (o : Option β) (h : (k' == k) = false) :
    List.find? (fun p => p.1 == k) (fieldEnc k' f o) = none := by
  cases o <;> simp [fieldEnc, h]

theorem find?_fieldEnc_self {β : Type} (k : String) (f : β → JVal)
    (o : Option β) :
    List.find? (fun p => p.1 == k) (fieldEnc k f o) =
      o.map (fun v => (k, f v)) := by
  cases o <;> simp [fieldEnc]

theorem getIntOpt_map (o : Option Int) :
    getIntOpt (o.map JVal.jint) = some o := by
  cases o <;> rfl

theorem getStrOpt_map (o : Option String) :
    getStrOpt (o.map JVal.jstr) = some o := by
  cases o <;> rfl

theorem getFloatOpt_map (o : Option Float) :
    getFloatOpt (o.map JVal.jfloat) = some o := by
  cases o <;> rfl

theorem getTsOpt_map (o : Option Timestamp)
    (h : ∀ t, o = some t → validParts t.time = true ∧ t.time.nsec = 0) :
    getTsOpt (o.map (fun t => JVal.jts (Timestamp.marshalJSON t))) = some o := by
  cases o with
  | none => rfl
  | some t =>
    obtain ⟨h1, h2⟩ := h t rfl
    simp [getTsOpt, ts_roundtrip t h1 h2]

theorem decode_encode_CPI (i : CharacterPublicInfo)
    (h : birthdayOK i = true) : decodeCPI (encodeCPI i) = some i := by
  obtain ⟨a, b, c, d, e, f, g, hg, n, r, s⟩ := i
  replace h : (∀ t, c = some t → validParts t.time = true ∧ t.time.nsec = 0) := by
    intro t ht
    cases c with
    | none => cases ht
    | some t2 =>
      cases ht
      simpa [birthdayOK, Bool.and_eq_true] using h
  simp [decodeCPI, lookupJ, encodeCPI, List.find?_append,
    find?_fieldEnc_self, find?_fieldEnc_ne, Function.comp_def,
    getIntOpt_map, getStrOpt_map, getFloatOpt_map, getTsOpt_map c h]

/-! Claim theorems. -/

/-- Claim C1: the classifier treats a completed response as success exactly
when its status code lies in the inclusive range [200, 299]; a status of
exactly 300 produces a structured error carrying status code 300. -/
theorem check_success_iff_2xx (errDecode : String → Option String)
    (tnow : Int) (resp : HttpResponse) :
    (check errDecode tnow resp = none ↔
      200 ≤ resp.statusCode ∧ resp.statusCode ≤ 299) ∧
    (resp.statusCode = 300 →
      check errDecode tnow resp = some (makeError errDecode tnow resp) ∧
      (makeError errDecode tnow resp).httpStatusCode = 300) := by
  constructor
  · unfold check
    split <;> simp_all
  · intro h300
    refine ⟨?_, ?_⟩
    · unfold check
      rw [if_neg (by omega)]
    · simp [makeError, h300]

/-- Witness for C1 at the boundary status 300. -/
theorem check_success_iff_2xx_witness :
    check (fun _ => none) 0 ⟨300, [], Except.ok ""⟩ =
      some (makeError (fun _ => none) 0 ⟨300, [], Except.ok ""⟩) ∧
    (makeError (fun _ => none) 0 ⟨300, [], Except.ok ""⟩).httpStatusCode = 300 :=
  (check_success_iff_2xx (fun _ => none) 0 ⟨300, [], Except.ok ""⟩).2 rfl

/-- Claim C2 counterexample: a completed, successful exchange whose
response carries fresh rate headers leaves the client rate state at its
previous value, so the dispatcher does not write the rate state after
every completed exchange. -/
theorem clientDo_success_rate_unchanged_cex :
    (clientDo (α := Unit) (fun _ => DecodeRes.eof) (fun _ => none) 100 ⟨1, 2⟩
        (Except.ok ⟨200,
          [("X-ESI-Error-Limit-Remain", "60"), ("X-ESI-Error-Limit-Reset", "42")],
          Except.ok ""⟩)
        Dest.null).rate = ⟨1, 2⟩ ∧
    parseRate
        [("X-ESI-Error-Limit-Remain", "60"), ("X-ESI-Error-Limit-Reset", "42")]
        100 = ⟨60, 142⟩ ∧
    (⟨1, 2⟩ : Rate) ≠ ⟨60, 142⟩ := by
  refine ⟨rfl, rfl, by decide⟩

/-- Claim C2 (amended): the dispatcher writes the rate state after every
completed exchange classified as failure, taking it from the structured
error; a completed successful exchange leaves the rate state untouched;
and a transport failure is returned unmodified with the rate state
untouched. -/
theorem clientDo_rate_update_cases (α : Type) (dec : String → DecodeRes α)
    (errDecode : String → Option String) (tnow : Int) (rate0 : Rate)
    (dest : Dest α) :
    (∀ e, clientDo dec errDecode tnow rate0 (Except.error e) dest =
      ⟨none, some (DoErr.transport e), rate0, none, none⟩) ∧
    (∀ resp, check errDecode tnow resp = none →
      (clientDo dec errDecode tnow rate0 (Except.ok resp) dest).rate = rate0) ∧
    (∀ resp apiErr, check errDecode tnow resp = some apiErr →
      (clientDo dec errDecode tnow rate0 (Except.ok resp) dest).rate =
        apiErr.rate) := by
  refine ⟨fun e => rfl, fun resp hc => ?_, fun resp apiErr hc => ?_⟩
  · simp only [clientDo]
    rw [hc]
    cases dest with
    | null => rfl
    | writer write => rfl
    | decoder =>
      cases hb : resp.body with
      | error e => simp [hb]
      | ok data => cases hd : dec data <;> simp [hb, hd]
  · simp only [clientDo]
    rw [hc]

/-- Witness for C2 (amended) on one transport failure, one success and one
failure exchange. -/
theorem clientDo_rate_update_cases_witness :
    (clientDo (α := Unit) (fun _ => DecodeRes.eof) (fun _ => none) 0 ⟨3, 4⟩
        (Except.error "network down") Dest.null =
      ⟨none, some (DoErr.transport "network down"), ⟨3, 4⟩, none, none⟩) ∧
    (clientDo (α := Unit) (fun _ => DecodeRes.eof) (fun _ => none) 0 ⟨3, 4⟩
        (Except.ok ⟨204, [], Except.ok ""⟩) Dest.null).rate = ⟨3, 4⟩ ∧
    (clientDo (α := Unit) (fun _ => DecodeRes.eof) (fun _ => none) 0 ⟨3, 4⟩
        (Except.ok ⟨500, [], Except.ok ""⟩) Dest.null).rate =
      (makeError (fun _ => none) 0 ⟨500, [], Except.ok ""⟩).rate :=
  ⟨(clientDo_rate_update_cases Unit (fun _ => DecodeRes.eof) (fun _ => none)
      0 ⟨3, 4⟩ Dest.null).1 "network down",
   (clientDo_rate_update_cases Unit (fun _ => DecodeRes.eof) (fun _ => none)
      0 ⟨3, 4⟩ Dest.null).2.1 ⟨204, [], Except.ok ""⟩ rfl,
   (clientDo_rate_update_cases Unit (fun _ => DecodeRes.eof) (fun _ => none)
      0 ⟨3, 4⟩ Dest.null).2.2 ⟨500, [], Except.ok ""⟩
      (makeError (fun _ => none) 0 ⟨500, [], Except.ok ""⟩) rfl⟩

/-- Claim C3 counterexample: a reset-delay header with integer value 0 at
instant 5 leaves Reset at the zero time instead of producing the claimed
instant T + 0 = 5. -/
theorem parseRate_zero_reset_cex :
    parseRate
        [("X-ESI-Error-Limit-Remain", "60"), ("X-ESI-Error-Limit-Reset", "0")]
        5 = ⟨60, 0⟩ ∧
    (⟨60, 0⟩ : Rate) ≠ ⟨60, 5⟩ := by
  refine ⟨rfl, by decide⟩

/-- Claim C3 (amended): a numeric remaining header with value R yields
Remaining = R; a numeric reset header with value S yields
Reset = T + S only when S is non-zero, and Reset stays at its zero value
when S parses to 0; absent or non-numeric headers leave the corresponding
field at its zero value. -/
theorem parseRate_fields (tnow : Int) (rs ss : String) (r s : Int)
    (hr : goAtoi rs = some r) (hs : goAtoi ss = some s) :
    parseRate [(headerErrorRateRemaining, rs), (headerErrorRateReset, ss)]
        tnow = ⟨r, if s = 0 then 0 else tnow + s⟩ ∧
    parseRate [] tnow = ⟨0, 0⟩ ∧
    (∀ rs2 ss2, goAtoi rs2 = none → goAtoi ss2 = none →
      parseRate [(headerErrorRateRemaining, rs2), (headerErrorRateReset, ss2)]
        tnow = ⟨0, 0⟩) := by
  have hrs : rs ≠ "" := by
    intro hempty
    subst hempty
    simp [goAtoi] at hr
  have hss : ss ≠ "" := by
    intro hempty
    subst hempty
    simp [goAtoi] at hs
  refine ⟨?_, rfl, ?_⟩
  · simp only [parseRate, headerGet, headerErrorRateRemaining,
      headerErrorRateReset, List.find?]
    simp [hr, hs, hrs, hss]
    by_cases h0 : s = 0 <;> simp [h0]
  · intro rs2 ss2 h1 h2
    by_cases e1 : rs2 = "" <;> by_cases e2 : ss2 = "" <;>
      simp only [parseRate, headerGet, headerErrorRateRemaining,
        headerErrorRateReset, List.find?] <;>
      simp [h1, h2, e1, e2]

/-- Witness for C3 (amended) at remaining 60, reset 42, instant 100. -/
theorem parseRate_fields_witness :
    parseRate [(headerErrorRateRemaining, "60"), (headerErrorRateReset, "42")]
        100 = ⟨60, if (42 : Int) = 0 then 0 else 100 + 42⟩ ∧
    parseRate [] 100 = ⟨0, 0⟩ ∧
    (∀ rs2 ss2, goAtoi rs2 = none → goAtoi ss2 = none →
      parseRate [(headerErrorRateRemaining, rs2), (headerErrorRateReset, ss2)]
        100 = ⟨0, 0⟩) :=
  parseRate_fields 100 "60" "42" 60 42 (by decide) (by decide)

/-- Claim C4: a successful response with an empty body and a non-nil JSON
decode destination returns no error and leaves the destination at its zero
value (the decoder reports io.EOF, which Do converts to success). -/
theorem clientDo_empty_body_decode_ok (α : Type) (dec : String → DecodeRes α)
    (errDecode : String → Option String) (tnow : Int) (rate0 : Rate)
    (sc : Int) (hs : List (String × String))
    (hdec : dec "" = DecodeRes.eof) (h1 : 200 ≤ sc) (h2 : sc ≤ 299) :
    (clientDo dec errDecode tnow rate0 (Except.ok ⟨sc, hs, Except.ok ""⟩)
        Dest.decoder).err = none ∧
    (clientDo dec errDecode tnow rate0 (Except.ok ⟨sc, hs, Except.ok ""⟩)
        Dest.decoder).destVal = none := by
  have hc : check errDecode tnow ⟨sc, hs, Except.ok ""⟩ = none := by
    unfold check
    rw [if_pos ⟨h1, h2⟩]
  simp only [clientDo]
  rw [hc]
  simp [hdec]

/-- Witness for C4 at status 204 with a decoder that reports io.EOF on an
empty input. -/
theorem clientDo_empty_body_decode_ok_witness :
    (clientDo (α := Int)
        (fun str => if str = "" then DecodeRes.eof else DecodeRes.err "bad")
        (fun _ => none) 0 ⟨0, 0⟩ (Except.ok ⟨204, [], Except.ok ""⟩)
        Dest.decoder).err = none ∧
    (clientDo (α := Int)
        (fun str => if str = "" then DecodeRes.eof else DecodeRes.err "bad")
        (fun _ => none) 0 ⟨0, 0⟩ (Except.ok ⟨204, [], Except.ok ""⟩)
        Dest.decoder).destVal = none :=
  clientDo_empty_body_decode_ok Int
    (fun str => if str = "" then DecodeRes.eof else DecodeRes.err "bad")
    (fun _ => none) 0 ⟨0, 0⟩ 204 [] rfl (by decide) (by decide)

/-- Claim C5 counterexample: resolving an already-absolute, cross-host URL
against the default base silently repoints the request at the other host
while the base is unchanged. -/
theorem resolveReference_absolute_repoint_cex :
    newRequestURL ⟨"https", "esi.evetech.net", "/"⟩
        ⟨"https", "other.example", "/x"⟩ =
      ⟨"https", "other.example", "/x"⟩ ∧
    ("other.example" : String) ≠ "esi.evetech.net" := by
  exact ⟨by decide, by decide⟩

/-- Claim C5 (amended): for every relative reference the URL built from an
absolute base is absolute and keeps the base scheme and host; but an
already-absolute reference resolves to itself, so it does repoint the
request at its own host with the base unchanged (no guard exists). -/
theorem resolveReference_scheme_host (base ref : GoURL)
    (hb : base.scheme ≠ "") :
    (ref.scheme = "" → ref.host = "" →
      (newRequestURL base ref).scheme = base.scheme ∧
      (newRequestURL base ref).host = base.host ∧
      (newRequestURL base ref).scheme ≠ "") ∧
    (ref.scheme ≠ "" →
      (newRequestURL base ref).scheme = ref.scheme ∧
      (newRequestURL base ref).host = ref.host) := by
  constructor
  · intro h1 h2
    simp [newRequestURL, resolveReference, h1, h2, hb]
  · intro h1
    simp [newRequestURL, resolveReference, h1]

/-- Witness for C5 (amended) at the default base and a relative path. -/
theorem resolveReference_scheme_host_witness :
    (newRequestURL ⟨"https", "esi.evetech.net", "/"⟩
        ⟨"", "", "v1/fleets/42/"⟩).scheme = "https" ∧
    (newRequestURL ⟨"https", "esi.evetech.net", "/"⟩
        ⟨"", "", "v1/fleets/42/"⟩).host = "esi.evetech.net" ∧
    (newRequestURL ⟨"https", "esi.evetech.net", "/"⟩
        ⟨"", "", "v1/fleets/42/"⟩).scheme ≠ "" :=
  (resolveReference_scheme_host ⟨"https", "esi.evetech.net", "/"⟩
      ⟨"", "", "v1/fleets/42/"⟩ (by decide)).1 rfl rfl

theorem applyFmt_rate (a b : String) :
    applyFmt "error rate limit: %d remaining calls; reset in %.fs".data
        [a, b] =
      "error rate limit: ".data ++
        (a.data ++ (" remaining calls; reset in ".data ++
          (b.data ++ "s".data))) := rfl

/-- Claim C6: the Rate string form is exactly the fixed template around the
remaining count and the render-time duration Reset minus now in whole
seconds; the duration is not clamped, so once the reset instant has passed
it renders with a leading minus sign. -/
theorem rateString_shape (r : Rate) (tnow : Int) :
    rateString r tnow =
      "error rate limit: " ++ toString r.remaining ++
        " remaining calls; reset in " ++ toString (r.reset - tnow) ++ "s" ∧
    (r.reset < tnow →
      toString (r.reset - tnow) = "-" ++ toString (tnow - r.reset)) := by
  constructor
  · apply String.ext
    have hd : ∀ x y : String, (x ++ y).data = x.data ++ y.data :=
      fun x y => rfl
    show applyFmt "error rate limit: %d remaining calls; reset in %.fs".data
        [toString r.remaining, toString (r.reset - tnow)] = _
    rw [applyFmt_rate]
    simp only [hd, List.append_assoc]
  · intro hlt
    cases hsub : r.reset - tnow with
    | ofNat m =>
      exfalso
      rw [Int.ofNat_eq_natCast] at hsub
      omega
    | negSucc k =>
      rw [Int.negSucc_eq] at hsub
      have h2 : tnow - r.reset = ((k + 1 : Nat) : Int) := by
        push_cast
        omega
      rw [h2]
      rfl

/-- Witness for C6 with the reset instant already two seconds in the
past. -/
theorem rateString_shape_witness :
    rateString ⟨60, 10⟩ 12 =
      "error rate limit: " ++ toString (60 : Int) ++
        " remaining calls; reset in " ++ toString ((10 : Int) - 12) ++ "s" ∧
    toString ((10 : Int) - 12) = "-" ++ toString ((12 : Int) - 10) :=
  ⟨(rateString_shape ⟨60, 10⟩ 12).1,
   (rateString_shape ⟨60, 10⟩ 12).2 (by decide)⟩

/-- Claim C7: the classifier obtains the structured error message by
best-effort decoding of the body: a body read failure or a failed decode
leaves the message empty without preventing construction of the error
(status code and rate snapshot are always recorded), a successful decode
stores the extracted message, and the human-readable form of the error is
exactly its message field. -/
theorem makeError_best_effort (errDecode : String → Option String)
    (tnow : Int) (resp : HttpResponse) :
    (∀ e, resp.body = Except.error e →
      (makeError errDecode tnow resp).err = "") ∧
    (∀ data, resp.body = Except.ok data → errDecode data = none →
      (makeError errDecode tnow resp).err = "") ∧
    (∀ data m, resp.body = Except.ok data → errDecode data = some m →
      (makeError errDecode tnow resp).err = m) ∧
    (makeError errDecode tnow resp).httpStatusCode = resp.statusCode ∧
    (makeError errDecode tnow resp).rate = parseRate resp.headers tnow ∧
    (∀ e : Error, e.error = e.err) := by
  refine ⟨?_, ?_, ?_, rfl, rfl, fun e => rfl⟩
  · intro e he
    simp [makeError, he]
  · intro data hdata hdec
    simp [makeError, hdata, hdec]
  · intro data m hdata hdec
    simp [makeError, hdata, hdec]

/-- Witness for C7 on a failed body read and on a decoded message. -/
theorem makeError_best_effort_witness :
    (makeError (fun _ => none) 0 ⟨500, [], Except.error "read failure"⟩).err
      = "" ∧
    (makeError (fun _ => some "some error") 0
        ⟨400, [], Except.ok "body"⟩).err = "some error" :=
  ⟨(makeError_best_effort (fun _ => none) 0
      ⟨500, [], Except.error "read failure"⟩).1 "read failure" rfl,
   (makeError_best_effort (fun _ => some "some error") 0
      ⟨400, [], Except.ok "body"⟩).2.2.1 "body" "some error" rfl rfl⟩

/-- Claim C8 (code bug): on a successful response delivered to an io.Writer
destination whose write fails, Client.Do discards the io.Copy result and
returns no error, so the copy failure is swallowed rather than surfaced. -/
theorem clientDo_copy_error_swallowed :
    (clientDo (α := Unit) (fun _ => DecodeRes.eof) (fun _ => none) 0 ⟨0, 0⟩
        (Except.ok ⟨200, [], Except.ok "payload"⟩)
        (Dest.writer (fun _ => Except.error "sink write failure"))).err =
      none ∧
    (clientDo (α := Unit) (fun _ => DecodeRes.eof) (fun _ => none) 0 ⟨0, 0⟩
        (Except.ok ⟨200, [], Except.ok "payload"⟩)
        (Dest.writer (fun _ => Except.error "sink write failure"))).copyResult
      = some (Except.error "sink write failure") :=
  ⟨rfl, rfl⟩

/-- Claim C9 counterexample: RFC3339 carries only whole seconds, so a
Timestamp with a non-zero sub-second component does not survive the
marshal/unmarshal round trip: the decoded value has nanoseconds 0 and is
not equal to the original. -/
theorem timestamp_subsecond_roundtrip_cex :
    Timestamp.unmarshalJSON
        (Timestamp.marshalJSON ⟨⟨2006, 1, 2, 15, 4, 5, 500000000, 0⟩⟩) =
      TsUnmarshalRes.ok ⟨⟨2006, 1, 2, 15, 4, 5, 0, 0⟩⟩ ∧
    (⟨⟨2006, 1, 2, 15, 4, 5, 0, 0⟩⟩ : Timestamp) ≠
      ⟨⟨2006, 1, 2, 15, 4, 5, 500000000, 0⟩⟩ := by
  exact ⟨by decide, by decide⟩

/-- Claim C9 (amended): encoding then decoding yields an equal value for
every representable field combination, including all-fields-absent,
provided every Timestamp carried has a zero sub-second component (and
RFC3339-representable fields); in particular Timestamp.MarshalJSON
followed by Timestamp.UnmarshalJSON round-trips exactly those Timestamp
values, the second-precision encoding dropping any sub-second part. -/
theorem json_roundtrip :
    (∀ t : Timestamp, validParts t.time = true → t.time.nsec = 0 →
      Timestamp.unmarshalJSON (Timestamp.marshalJSON t) =
        TsUnmarshalRes.ok t) ∧
    (∀ i : CharacterPublicInfo, birthdayOK i = true →
      decodeCPI (encodeCPI i) = some i) :=
  ⟨ts_roundtrip, decode_encode_CPI⟩

/-- Witness for C9 (amended) at a concrete timestamp and the
all-fields-absent record. -/
theorem json_roundtrip_witness :
    (validParts ⟨2006, 1, 2, 15, 4, 5, 0, 0⟩ = true ∧
      Timestamp.unmarshalJSON
          (Timestamp.marshalJSON ⟨⟨2006, 1, 2, 15, 4, 5, 0, 0⟩⟩) =
        TsUnmarshalRes.ok ⟨⟨2006, 1, 2, 15, 4, 5, 0, 0⟩⟩) ∧
    (birthdayOK ⟨none, none, none, none, none, none, none, none, none,
        none, none⟩ = true ∧
      decodeCPI (encodeCPI ⟨none, none, none, none, none, none, none, none,
          none, none, none⟩) =
        some ⟨none, none, none, none, none, none, none, none, none, none,
          none⟩) :=
  ⟨⟨by decide, json_roundtrip.1 ⟨⟨2006, 1, 2, 15, 4, 5, 0, 0⟩⟩ (by decide) rfl⟩,
   ⟨rfl, json_roundtrip.2
      ⟨none, none, none, none, none, none, none, none, none, none, none⟩
      rfl⟩⟩

/-- Claim C10 counterexample: the valid one-byte JSON input 5 reaches the
unconditional slice s[1:len(s)-1] with invalid bounds, so UnmarshalJSON
panics instead of returning an error. -/
theorem unmarshalJSON_short_input_cex :
    Timestamp.unmarshalJSON "5" = TsUnmarshalRes.panicked := by
  decide

/-- Claim C10 (amended): for every input of at least two bytes,
UnmarshalJSON either succeeds or returns a time parse error (a distinct
kind from the pure-syntax JSON errors the json package reports before the
method runs) and performs no out-of-bounds slice; inputs shorter than two
bytes make the slice bounds invalid and panic. -/
theorem unmarshalJSON_total_on_long_inputs (b : String)
    (h : 2 ≤ b.data.length) :
    Timestamp.unmarshalJSON b = TsUnmarshalRes.parseError ∨
    ∃ t, Timestamp.unmarshalJSON b = TsUnmarshalRes.ok t := by
  unfold Timestamp.unmarshalJSON
  rw [if_neg (by omega)]
  cases hp : parseRFC3339 (b.data.drop 1).dropLast with
  | none =>
    left
    rfl
  | some t =>
    right
    exact ⟨⟨t⟩, rfl⟩

/-- Witness for C10 (amended) on a quoted but malformed time value. -/
theorem unmarshalJSON_total_on_long_inputs_witness :
    Timestamp.unmarshalJSON "\"bad\"" = TsUnmarshalRes.parseError ∨
    ∃ t, Timestamp.unmarshalJSON "\"bad\"" = TsUnmarshalRes.ok t :=
  unmarshalJSON_total_on_long_inputs "\"bad\"" (by decide)

end Esi
